import Mathlib

/-!
Formal model of `src/bpm_detector.py` (BPM Resolution Pipeline).

Strings are modelled as `List Char`; Python string truthiness (empty string
and `None` are both falsy) is modelled by `Option (List Char)` with `none`
for an unset or empty value.  Character classes of the regular expression
`[^\w\s]` and `str.lower` are modelled on their ASCII fragment, which covers
every string appearing in the repository and its documentation.  External
collaborators (the Spotify web service, the filesystem walk, the librosa
decoder and beat tracker) are modelled as explicit parameters: the pipeline
functions receive the collaborator outcomes as arguments, exactly where the
Python code calls them.
-/

namespace BPMDetector

/-- Python `str.lower` on a single character (ASCII fragment): code points
65 to 90 are shifted by 32, everything else is unchanged. -/
def pyLower (c : Char) : Char :=
  if 65 ≤ c.toNat ∧ c.toNat ≤ 90 then Char.ofNat (c.toNat + 32) else c

/-- Characters matched by the regex class `\w` (ASCII fragment):
alphanumeric or underscore. -/
def isWordChar (c : Char) : Bool := c.isAlphanum || c == '_'

/-- Characters matched by the regex class `\s` (ASCII fragment). -/
def isSpaceChar (c : Char) : Bool :=
  c == ' ' || c == '\t' || c == '\n' || c == '\x0b' || c == '\x0c' || c == '\r'

/-- A character survives `re.sub(r'[^\w\s]', '', s)` iff it is a word
character or whitespace. -/
def keepChar (c : Char) : Bool := isWordChar c || isSpaceChar c

/-- Embedding of the cleaning step used in `scan_directory_for_song`
(lines 74 and 78 of `bpm_detector.py`):
`re.sub(r'[^\w\s]', '', s.lower())` — lower-case the string, then delete
every character that is neither a word character nor whitespace. -/
def normalize (s : List Char) : List Char := (s.map pyLower).filter keepChar

/-- The normalizer the specification describes in its own words (section 4.1):
lower-case and remove every character that is not alphanumeric and not
whitespace.  Kept separate from `normalize` (the code) for comparison. -/
def specNormalize (s : List Char) : List Char :=
  (s.map pyLower).filter (fun c => c.isAlphanum || isSpaceChar c)

/-- `hasPref p l` holds when `p` is a leading segment of `l`. -/
def hasPref : List Char → List Char → Bool
  | [], _ => true
  | _ :: _, [] => false
  | a :: as, b :: bs => a == b && hasPref as bs

/-- Python substring test `needle in hay` on character lists. -/
def containsSeg : List Char → List Char → Bool
  | [], needle => hasPref needle []
  | c :: t, needle => hasPref needle (c :: t) || containsSeg t needle

/-- Python `l.endswith(s)` on character lists. -/
def endsWithL (l s : List Char) : Bool := hasPref s.reverse l.reverse

/-- Extension filter of `scan_directory_for_song` line 77 and of both
presentation layers: `name.lower().endswith(('.mp3', '.wav'))`. -/
def allowedExt (name : List Char) : Bool :=
  endsWithL (name.map pyLower) ".mp3".data || endsWithL (name.map pyLower) ".wav".data

/-- Helper for `stem`: given the reversed file name, drop characters up to and
including the first dot found; `none` when the name has no dot. -/
def dropExtRev : List Char → Option (List Char)
  | [] => none
  | c :: cs => if c == '.' then some cs else dropExtRev cs

/-- Embedding of `os.path.splitext(name)[0]`: everything before the last dot,
except that a name whose characters before the last dot are all dots (such as
`.mp3` alone) is returned whole. -/
def stem (name : List Char) : List Char :=
  match dropExtRev name.reverse with
  | none => name
  | some restRev =>
    let st := restRev.reverse
    if st.all (fun c => c == '.') then name else st

/-- One file produced by the `os.walk` traversal: the directory part (`root`)
and the bare file name. -/
structure FileEntry where
  root : List Char
  name : List Char
deriving DecidableEq

/-- Embedding of `os.path.join(root, file)` with the POSIX separator. -/
def joinPath (root name : List Char) : List Char := root ++ '/' :: name

/-- Embedding of `scan_directory_for_song` (lines 71 to 87).  The `os.walk`
traversal of the directory is modelled by the list `files` of encountered
files in traversal order.  The function returns the joined path of the first
file whose lower-cased name ends in `.mp3` or `.wav` and whose normalized
stem contains the normalized song name as a substring; `none` when no file
qualifies (the unreadable-directory exception handler also returns `None`,
modelled by an empty traversal). -/
def scan_directory_for_song (files : List FileEntry) (songName : List Char) :
    Option (List Char) :=
  let songClean := normalize songName
  (files.find? (fun f =>
      allowedExt f.name && containsSeg (normalize (stem f.name)) songClean)).map
    (fun f => joinPath f.root f.name)

/-- Result of `librosa.beat.beat_track`: either a plain tempo value or an
ndarray of candidate tempo values. -/
inductive TempoOut where
  | single (t : ℚ)
  | multiple (ts : List ℚ)
deriving DecidableEq

/-- Outcome of `librosa.load`: either the decoded audio (summarised by the
beat-track result computed from it) or a raised decode error. -/
inductive LoadResult where
  | ok (beat : TempoOut)
  | failure (err : List Char)
deriving DecidableEq

/-- Banker rounding of a rational to the nearest integer, the model of
Python `round` on exact values: ties go to the even integer. -/
def pyRound (q : ℚ) : ℤ :=
  let f := ⌊q⌋
  let r := q - (f : ℚ)
  if r < 1/2 then f
  else if (1 : ℚ)/2 < r then f + 1
  else if f % 2 = 0 then f else f + 1

/-- Model of Python `round(x, 2)`. -/
def round2 (q : ℚ) : ℚ := ((pyRound (q * 100) : ℤ) : ℚ) / 100

/-- Stand-in textual rendering of a tempo value inside diagnostic messages
(presentation only; no theorem inspects the digits). -/
def showRat (q : ℚ) : List Char :=
  (toString q.num).data ++ "/".data ++ (toString q.den).data

/-- Success message of `detect_bpm_local` line 108. -/
def localMsg (path : List Char) (t : ℚ) : List Char :=
  "Local analysis BPM for \x27".data ++ path ++ "\x27: ".data ++ showRat t

/-- Embedding of `detect_bpm_local` (lines 89 to 112).  `fileExists` models
`os.path.exists(file_path)`; `load` models the `librosa.load` call and the
beat tracker run on its output.  An ndarray result uses its first element;
an empty ndarray raises an index error that the handler converts into a
failure pair, like every other exception. -/
def detect_bpm_local (fileExists : Bool) (load : LoadResult) (path : List Char) :
    Option ℚ × List Char :=
  if fileExists then
    match load with
    | .failure e => (none, "Error processing audio file: ".data ++ e)
    | .ok (.single t) => (some (round2 t), localMsg path (round2 t))
    | .ok (.multiple []) =>
      (none, "Error processing audio file: index 0 is out of bounds for axis 0 with size 0".data)
    | .ok (.multiple (t :: _)) => (some (round2 t), localMsg path (round2 t))
  else
    (none, "Error processing audio file: Audio file ".data ++ path ++ " not found.".data)

/-- Response of the Spotify service to one search-plus-features round trip. -/
inductive SpotifyResponse where
  | ok (trackName artist : List Char) (tempo : Option ℚ)
  | noTracks
  | apiError (status : ℕ) (detail : List Char)
  | otherError (detail : List Char)
deriving DecidableEq

/-- Remediation message of `search_spotify_bpm` line 64 for status 403. -/
def forbiddenMsg : List Char :=
  "403 Forbidden: Check your Spotify API credentials or try again later due to rate limits. Visit https://developer.spotify.com/dashboard.".data

/-- Embedding of `search_spotify_bpm` (lines 35 to 69), parametric in the
service response: returns the rounded tempo of the top result, or `none`
with the diagnostic message of the branch taken. -/
def search_spotify_bpm (resp : SpotifyResponse) (songName : List Char) :
    Option ℚ × List Char :=
  match resp with
  | .noTracks =>
    (none, "No tracks found for \x27".data ++ songName ++ "\x27 on Spotify.".data)
  | .ok trackName artist tempoOpt =>
    match tempoOpt with
    | some t =>
      (some (round2 t),
        "Spotify BPM for \x27".data ++ trackName ++ " by ".data ++ artist
          ++ "\x27: ".data ++ showRat (round2 t))
    | none => (none, "No BPM data available on Spotify for this track.".data)
  | .apiError status detail =>
    if status = 403 then (none, forbiddenMsg)
    else (none, "Spotify API error: ".data ++ detail)
  | .otherError detail =>
    (none, "Error retrieving BPM from Spotify: ".data ++ detail)

/-- Hardcoded fallback client id of `setup_spotify_client` line 19. -/
def hardcodedClientId : List Char := "178f7acf67e24baf9e59e879bbc4b466".data

/-- Hardcoded fallback client secret of `setup_spotify_client` line 20. -/
def hardcodedClientSecret : List Char := "e3fa86799c85420c8c86e5e2276a6f0c".data

/-- Python falsiness of an environment variable value: unset or empty. -/
def falsy : Option (List Char) → Bool
  | none => true
  | some s => s.isEmpty

/-- Embedding of `setup_spotify_client` (lines 12 to 33): the credentials the
client is built with, given the two environment values.  When either value is
falsy, the hardcoded pair is substituted; since the hardcoded strings are
nonempty, the subsequent emptiness check never raises and the function always
returns a client (`none` would require the client constructor itself to
raise, which takes no network action in the source). -/
def setup_spotify_client (envId envSecret : Option (List Char)) :
    Option (List Char × List Char) :=
  if falsy envId || falsy envSecret then
    some (hardcodedClientId, hardcodedClientSecret)
  else
    some (envId.getD [], envSecret.getD [])

/-- A parsed command line (`args.song`, `args.filename`, `args.directory`),
with `none` for an absent or empty value. -/
structure Request where
  song : Option (List Char)
  filename : Option (List Char)
  directory : Option (List Char)
deriving DecidableEq

/-- Outcome of the command-line path of `main` (lines 212 to 259). -/
inductive Outcome where
  | launchGui
  | conflictError
  | unsupportedFormatError
  | missingSongError
  | result (bpm : Option ℚ) (message : List Char)
deriving DecidableEq

/-- Embedding of the resolution logic of `main` (lines 222 to 259), after
argument parsing.  `setupOk` is whether `setup_spotify_client` returned a
client; `remote` is `search_spotify_bpm` applied to that client (a pair of
optional tempo and message); `scanFiles` is the `os.walk` traversal of
`args.directory`; `analyze` is `detect_bpm_local`.  The collaborators are
parameters so that which of them can influence the outcome is visible in the
theorems. -/
def mainPipeline (setupOk : Bool) (remote : List Char → Option ℚ × List Char)
    (scanFiles : List FileEntry) (analyze : List Char → Option ℚ × List Char)
    (args : Request) : Outcome :=
  if args.song.isNone ∧ args.filename.isNone ∧ args.directory.isNone then
    .launchGui
  else if args.filename.isSome ∧ (args.song.isSome ∨ args.directory.isSome) then
    .conflictError
  else
    match args.filename with
    | some path =>
      if allowedExt path then
        match analyze path with
        | (bpm, message) => .result bpm message
      else .unsupportedFormatError
    | none =>
      match args.song with
      | none => .missingSongError
      | some song =>
        match (if setupOk then remote song else (none, [])) with
        | (some bpm, message) => .result (some bpm) message
        | (none, message) =>
          match args.directory with
          | none => .result none message
          | some _ =>
            match scan_directory_for_song scanFiles song with
            | none => .result none message
            | some file =>
              match analyze file with
              | (bpm2, message2) => .result bpm2 message2

/-- Outcome of the GUI handler `BPMDetectorApp.process_bpm`: the text set in
the result box, by kind. -/
inductive GuiOutcome where
  | inputError
  | formatError
  | success (bpm : ℚ) (message : List Char)
  | failure (message : List Char)
deriving DecidableEq

/-- Embedding of `BPMDetectorApp.process_bpm` (lines 177 to 210), with the
same collaborator parameters as `mainPipeline`.  The three optional strings
are the stripped contents of the song, directory and file fields.  When the
file field is nonempty the handler takes the file branch regardless of the
other fields; the second `none` song branch is unreachable under the first
guard and mirrors the fall-through of the source. -/
def process_bpm (setupOk : Bool) (remote : List Char → Option ℚ × List Char)
    (scanFiles : List FileEntry) (analyze : List Char → Option ℚ × List Char)
    (songName directory filePath : Option (List Char)) : GuiOutcome :=
  if songName.isNone ∧ filePath.isNone then .inputError
  else
    match filePath with
    | some path =>
      if allowedExt path then
        match analyze path with
        | (some bpm, message) => .success bpm message
        | (none, message) => .failure message
      else .formatError
    | none =>
      match songName with
      | none => .inputError
      | some song =>
        match (if setupOk then remote song else (none, [])) with
        | (some bpm, message) => .success bpm message
        | (none, message) =>
          match directory with
          | none => .failure message
          | some _ =>
            match scan_directory_for_song scanFiles song with
            | none => .failure message
            | some file =>
              match analyze file with
              | (some bpm2, message2) => .success bpm2 message2
              | (none, message2) => .failure message2

/-- Directory traversal holding the underscore-named file of Scenario B. -/
def musicUnderscore : List FileEntry := [⟨"/music".data, "obscure_track.mp3".data⟩]

/-- Directory traversal holding a space-named variant of the same track. -/
def musicSpace : List FileEntry := [⟨"/music".data, "Obscure Track.mp3".data⟩]

/-- `Char.ofNat` of a valid code point decodes back to that code point. -/
theorem toNat_ofNat_valid (n : Nat) (h : n.isValidChar) : (Char.ofNat n).toNat = n := by
  simp [Char.ofNat, h, Char.ofNatAux, Char.toNat, UInt32.toNat]

/-- Lower-casing a character twice is the same as doing it once. -/
theorem pyLower_idem (c : Char) : pyLower (pyLower c) = pyLower c := by
  unfold pyLower
  split
  · have hv : (c.toNat + 32).isValidChar := by
      left
      omega
    rw [toNat_ofNat_valid _ hv]
    have hno : ¬ (65 ≤ c.toNat + 32 ∧ c.toNat + 32 ≤ 90) := by omega
    rw [if_neg hno]
  · rfl

/-- Characters of a normalized string are already lower case. -/
theorem pyLower_fixed_of_mem_normalize {c : Char} {s : List Char}
    (h : c ∈ normalize s) : pyLower c = c := by
  have hc : c ∈ s.map pyLower := List.mem_of_mem_filter h
  obtain ⟨a, _, rfl⟩ := List.mem_map.mp hc
  exact pyLower_idem a

/-- Normalizing is idempotent. -/
theorem normalize_idem (s : List Char) : normalize (normalize s) = normalize s := by
  show ((normalize s).map pyLower).filter keepChar = normalize s
  have hmap : (normalize s).map pyLower = normalize s := by
    refine (List.map_congr_left ?_).trans (List.map_id _)
    intro c hc
    exact pyLower_fixed_of_mem_normalize hc
  rw [hmap]
  exact List.filter_eq_self.mpr (fun c hc => (List.mem_filter.mp hc).2)

/-- `hasPref p l` holds exactly when `l` decomposes as `p` followed by a rest. -/
theorem hasPref_iff (p l : List Char) : hasPref p l = true ↔ ∃ r, l = p ++ r := by
  induction p generalizing l with
  | nil => simp [hasPref]
  | cons a as ih =>
    cases l with
    | nil => simp [hasPref]
    | cons b bs =>
      simp only [hasPref, Bool.and_eq_true, beq_iff_eq, ih, List.cons_append,
        List.cons.injEq]
      constructor
      · rintro ⟨rfl, r, rfl⟩
        exact ⟨r, rfl, rfl⟩
      · rintro ⟨r, rfl, rfl⟩
        exact ⟨rfl, r, rfl⟩

/-- A leading segment of `l` is also a leading segment of `l ++ t`. -/
theorem hasPref_append (p l t : List Char) (h : hasPref p l = true) :
    hasPref p (l ++ t) = true := by
  obtain ⟨r, rfl⟩ := (hasPref_iff p l).mp h
  exact (hasPref_iff p _).mpr ⟨r ++ t, by simp⟩

/-- The substring test holds exactly when the haystack decomposes around the
needle. -/
theorem containsSeg_iff (hay needle : List Char) :
    containsSeg hay needle = true ↔ ∃ l r, hay = l ++ needle ++ r := by
  induction hay with
  | nil =>
    simp only [containsSeg, hasPref_iff]
    constructor
    · rintro ⟨r, hr⟩
      exact ⟨[], r, by simpa using hr⟩
    · rintro ⟨l, r, hr⟩
      have hl : l = [] ∧ needle ++ r = [] := by
        simpa [List.append_eq_nil] using hr.symm
      exact ⟨r, by simp [hl.2]⟩
  | cons c t ih =>
    simp only [containsSeg, Bool.or_eq_true, hasPref_iff, ih]
    constructor
    · rintro (⟨r, hr⟩ | ⟨l, r, rfl⟩)
      · exact ⟨[], r, by simpa using hr⟩
      · exact ⟨c :: l, r, by simp⟩
    · rintro ⟨l, r, hl⟩
      cases l with
      | nil =>
        exact Or.inl ⟨r, by simpa using hl⟩
      | cons c2 l2 =>
        have h2 := List.cons.injEq .. ▸ hl
        simp only [List.cons_append, List.cons.injEq] at hl
        exact Or.inr ⟨l2, r, hl.2⟩

/-- The empty needle is a substring of everything (Python `"" in s`). -/
theorem containsSeg_nil (hay : List Char) : containsSeg hay [] = true := by
  cases hay <;> simp [containsSeg, hasPref]

/-- Pointwise equal predicates find the same first element. -/
theorem find?_ext {α : Type} (p q : α → Bool) (l : List α) (h : ∀ a, p a = q a) :
    l.find? p = l.find? q := by
  induction l with
  | nil => rfl
  | cons a t ih =>
    cases hqa : q a with
    | true =>
      rw [List.find?_cons_of_pos _ (h a ▸ hqa), List.find?_cons_of_pos _ hqa]
    | false =>
      rw [List.find?_cons_of_neg _ (by simp [h a, hqa]),
        List.find?_cons_of_neg _ (by simp [hqa]), ih]

/-- Joining a directory in front of a file name preserves the audio-extension
check. -/
theorem allowedExt_joinPath (root name : List Char) (h : allowedExt name = true) :
    allowedExt (joinPath root name) = true := by
  have hslash : pyLower '/' = '/' := by decide
  have hmap : (joinPath root name).map pyLower
      = root.map pyLower ++ '/' :: name.map pyLower := by
    simp [joinPath, hslash]
  unfold allowedExt endsWithL at h ⊢
  rw [hmap]
  have hrev : (root.map pyLower ++ '/' :: name.map pyLower).reverse
      = (name.map pyLower).reverse ++ ('/' :: (root.map pyLower).reverse) := by
    simp
  rw [hrev]
  simp only [Bool.or_eq_true]
  have h2 : hasPref ".mp3".data.reverse (name.map pyLower).reverse = true
      ∨ hasPref ".wav".data.reverse (name.map pyLower).reverse = true := by
    simpa using h
  rcases h2 with h1 | h1
  · exact Or.inl (by simpa using hasPref_append _ _ ('/' :: (root.map pyLower).reverse) h1)
  · exact Or.inr (by simpa using hasPref_append _ _ ('/' :: (root.map pyLower).reverse) h1)

/-- C4, counterexample.  The claim says `normalize` removes every character
that is not alphanumeric and not whitespace; but the regex class `\w` also
keeps underscores, so `normalize "a_b"` keeps the underscore, which is
neither alphanumeric nor whitespace, and differs from the transform the
claim describes. -/
theorem claim_C4_counterexample :
    normalize "a_b".data ≠ specNormalize "a_b".data
    ∧ normalize "a_b".data = "a_b".data
    ∧ '_' ∈ normalize "a_b".data
    ∧ ('_'.isAlphanum || isSpaceChar '_') = false := by
  decide

/-- C4, amended.  `normalize` equals the input lower-cased with every
character removed that is not a word character (alphanumeric or underscore)
and not whitespace; every character of the output is alphanumeric, an
underscore, or whitespace.  It is a pure function of its argument (it is a
Lean function of `s` alone). -/
theorem claim_C4_amended (s : List Char) :
    normalize s
      = (s.map pyLower).filter (fun c => c.isAlphanum || c == '_' || isSpaceChar c)
    ∧ ∀ c ∈ normalize s, (c.isAlphanum || c == '_' || isSpaceChar c) = true := by
  constructor
  · refine List.filter_congr ?_
    intro c _
    simp [keepChar, isWordChar, Bool.or_assoc]
  · intro c hc
    have h := (List.mem_filter.mp hc).2
    simpa [keepChar, isWordChar, Bool.or_assoc] using h

/-- Witness for C4 amended at a concrete input containing an underscore. -/
theorem claim_C4_witness :
    (normalize "a_b".data
      = ("a_b".data.map pyLower).filter (fun c => c.isAlphanum || c == '_' || isSpaceChar c))
    ∧ ('_'.isAlphanum || '_' == '_' || isSpaceChar '_') = true :=
  ⟨(claim_C4_amended "a_b".data).1,
    (claim_C4_amended "a_b".data).2 '_' (by decide)⟩

/-- C5.  Normalization is idempotent, and it is case- and
punctuation-insensitive on the example of the specification:
`normalize "Firefly (Jim Yosef)" = normalize "firefly jim yosef"`. -/
theorem claim_C5 :
    (∀ s : List Char, normalize (normalize s) = normalize s)
    ∧ normalize "Firefly (Jim Yosef)".data = normalize "firefly jim yosef".data :=
  ⟨normalize_idem, by decide⟩

/-- C6.  The directory scan returns a file iff some file of the traversal has
an allowed extension (`.mp3` or `.wav`, case-insensitive) and a normalized
stem containing the normalized song name as a substring; and every returned
path itself carries an allowed extension (so a file with a disallowed
extension is never returned, however its name reads). -/
theorem claim_C6 (files : List FileEntry) (song : List Char) :
    ((scan_directory_for_song files song).isSome = true ↔
      ∃ f ∈ files, allowedExt f.name = true ∧
        ∃ l r, normalize (stem f.name) = l ++ normalize song ++ r)
    ∧ ∀ p, scan_directory_for_song files song = some p → allowedExt p = true := by
  constructor
  · simp only [scan_directory_for_song, Option.isSome_map']
    rw [List.find?_isSome]
    constructor
    · rintro ⟨f, hf, hp⟩
      rw [Bool.and_eq_true] at hp
      exact ⟨f, hf, hp.1, (containsSeg_iff _ _).mp hp.2⟩
    · rintro ⟨f, hf, h1, h2⟩
      refine ⟨f, hf, ?_⟩
      rw [Bool.and_eq_true]
      exact ⟨h1, (containsSeg_iff _ _).mpr h2⟩
  · intro p hp
    simp only [scan_directory_for_song] at hp
    rw [Option.map_eq_some'] at hp
    obtain ⟨f, hfind, rfl⟩ := hp
    have h1 := List.find?_some hfind
    rw [Bool.and_eq_true] at h1
    exact allowedExt_joinPath _ _ h1.1

/-- Witness for C6 at a one-file traversal that matches. -/
theorem claim_C6_witness :
    (scan_directory_for_song [⟨"/m".data, "song.mp3".data⟩] "song".data).isSome = true
    ∧ allowedExt "/m/song.mp3".data = true := by
  refine ⟨?_, ?_⟩
  · exact (claim_C6 [⟨"/m".data, "song.mp3".data⟩] "song".data).1.mpr
      ⟨⟨"/m".data, "song.mp3".data⟩, by decide, by decide, [], [], by decide⟩
  · exact (claim_C6 [⟨"/m".data, "song.mp3".data⟩] "song".data).2
      "/m/song.mp3".data (by decide)

/-- C8.  When the beat tracker returns an ndarray of several candidates, the
resolved value is the first element rounded to two decimals; the remaining
candidates never influence the result, and the outcome coincides with the
single-value case for the same first element. -/
theorem claim_C8 (path : List Char) (t : ℚ) (rest restAlt : List ℚ) :
    detect_bpm_local true (.ok (.multiple (t :: rest))) path
      = detect_bpm_local true (.ok (.multiple (t :: restAlt))) path
    ∧ (detect_bpm_local true (.ok (.multiple (t :: rest))) path).1 = some (round2 t)
    ∧ detect_bpm_local true (.ok (.multiple (t :: rest))) path
      = detect_bpm_local true (.ok (.single t)) path :=
  ⟨rfl, rfl, rfl⟩

/-- C10.  When the normalized song name is empty (for example a name that is
all punctuation), the substring test accepts every stem, so the scan returns
the first file of the traversal with an allowed extension, regardless of its
name; with at least one audio file present it always returns a file. -/
theorem claim_C10 (files : List FileEntry) (song : List Char)
    (h : normalize song = []) (hex : ∃ f ∈ files, allowedExt f.name = true) :
    scan_directory_for_song files song
      = (files.find? (fun f => allowedExt f.name)).map (fun f => joinPath f.root f.name)
    ∧ (scan_directory_for_song files song).isSome = true := by
  have hpred : ∀ f : FileEntry,
      (allowedExt f.name && containsSeg (normalize (stem f.name)) (normalize song))
        = allowedExt f.name := by
    intro f
    rw [h, containsSeg_nil, Bool.and_true]
  have heq : scan_directory_for_song files song
      = (files.find? (fun f => allowedExt f.name)).map (fun f => joinPath f.root f.name) := by
    simp only [scan_directory_for_song]
    rw [find?_ext _ _ files hpred]
  refine ⟨heq, ?_⟩
  rw [heq, Option.isSome_map']
  exact List.find?_isSome.mpr hex

/-- Witness for C10: a punctuation-only song name returns the first audio
file of the traversal. -/
theorem claim_C10_witness :
    scan_directory_for_song [⟨"/m".data, "a.mp3".data⟩] "!!!".data
      = some "/m/a.mp3".data
    ∧ (scan_directory_for_song [⟨"/m".data, "a.mp3".data⟩] "!!!".data).isSome = true := by
  have h := claim_C10 [⟨"/m".data, "a.mp3".data⟩] "!!!".data (by decide)
    ⟨⟨"/m".data, "a.mp3".data⟩, by decide, by decide⟩
  exact ⟨h.1.trans (by decide), h.2⟩

/-- C1, counterexample.  The GUI handler does not reject a request that sets
both a song name and a file path: it silently prioritizes the file path and
runs local analysis on it (the outcome carries the analysis collaborator
value), while the command-line path rejects the same combination — so the
rejection is not uniform across the two presentation layers. -/
theorem claim_C1_counterexample :
    process_bpm true (fun _ => (none, [])) [] (fun _ => (some 120, "local".data))
        (some "somesong".data) none (some "track.mp3".data)
      = GuiOutcome.success 120 "local".data
    ∧ mainPipeline true (fun _ => (none, [])) [] (fun _ => (some 120, "local".data))
        ⟨some "somesong".data, some "track.mp3".data, none⟩
      = Outcome.conflictError :=
  ⟨rfl, rfl⟩

/-- C1, amended.  The command-line pipeline rejects every request that sets
`filename` together with `song` or `directory` with the conflicting-inputs
error, independently of every collaborator (so no lookup, scan, or analysis
can influence it); the GUI handler performs no such check: with a file path
set its outcome is identical to that of a request with the song and
directory fields cleared, i.e. it validates only the extension and runs
direct file analysis. -/
theorem claim_C1_amended :
    (∀ (setupOk : Bool) (remote : List Char → Option ℚ × List Char)
      (scanFiles : List FileEntry) (analyze : List Char → Option ℚ × List Char)
      (args : Request),
      args.filename.isSome = true →
      (args.song.isSome = true ∨ args.directory.isSome = true) →
      mainPipeline setupOk remote scanFiles analyze args = Outcome.conflictError)
    ∧ ∀ (setupOk : Bool) (remote : List Char → Option ℚ × List Char)
      (scanFiles : List FileEntry) (analyze : List Char → Option ℚ × List Char)
      (song directory path : List Char),
      process_bpm setupOk remote scanFiles analyze (some song) (some directory) (some path)
        = process_bpm setupOk remote scanFiles analyze none none (some path) := by
  constructor
  · intro S R F A args h1 h2
    obtain ⟨s, f, d⟩ := args
    cases f with
    | none => simp at h1
    | some p =>
      rcases h2 with h2 | h2
      · cases s with
        | none => simp at h2
        | some sv => cases d <;> simp [mainPipeline]
      · cases d with
        | none => simp at h2
        | some dv => cases s <;> simp [mainPipeline]
  · intro S R F A song directory path
    rfl

/-- Witness for C1 amended: the command-line rejection at a concrete
conflicting request. -/
theorem claim_C1_witness :
    mainPipeline true (fun _ => (none, [])) [] (fun _ => (none, []))
        ⟨some "x".data, some "f".data, none⟩ = Outcome.conflictError :=
  claim_C1_amended.1 true (fun _ => (none, [])) [] (fun _ => (none, []))
    ⟨some "x".data, some "f".data, none⟩ (by decide) (Or.inl (by decide))

/-- C2, counterexample.  In the RemoteThenScan branch with a directory
supplied, when the remote lookup fails and the scan finds no file, the final
message is the remote-lookup failure message: the scan contributes no
message to the result (the code only prints its diagnostic), so the message
does not reflect the filesystem-scan outcome. -/
theorem claim_C2_counterexample :
    mainPipeline true (fun s => search_spotify_bpm .noTracks s) []
        (fun _ => (none, []))
        ⟨some "X".data, none, some "/music".data⟩
      = Outcome.result none "No tracks found for \x27X\x27 on Spotify.".data :=
  rfl

/-- C2, amended.  When every attempted step fails, the result is unresolved
and its message is that of the last attempted step that produced a message:
the remote-lookup failure message when the scan finds no file (the scan
returns no message), and the local-analysis failure message when the scan
finds a file whose analysis fails. -/
theorem claim_C2_amended :
    (∀ (remote : List Char → Option ℚ × List Char) (scanFiles : List FileEntry)
      (analyze : List Char → Option ℚ × List Char) (song directory msg : List Char),
      remote song = (none, msg) →
      scan_directory_for_song scanFiles song = none →
      mainPipeline true remote scanFiles analyze ⟨some song, none, some directory⟩
        = Outcome.result none msg)
    ∧ ∀ (remote : List Char → Option ℚ × List Char) (scanFiles : List FileEntry)
      (analyze : List Char → Option ℚ × List Char) (song directory msg f msg2 : List Char),
      remote song = (none, msg) →
      scan_directory_for_song scanFiles song = some f →
      analyze f = (none, msg2) →
      mainPipeline true remote scanFiles analyze ⟨some song, none, some directory⟩
        = Outcome.result none msg2 := by
  constructor
  · intro R F A song directory msg hremote hscan
    simp [mainPipeline, hremote, hscan]
  · intro R F A song directory msg f msg2 hremote hscan hanalyze
    simp [mainPipeline, hremote, hscan, hanalyze]

/-- Witness for C2 amended at concrete collaborator outcomes. -/
theorem claim_C2_witness :
    mainPipeline true (fun _ => (none, "remote failed".data)) []
        (fun _ => (none, "analysis failed".data))
        ⟨some "x".data, none, some "/m".data⟩
      = Outcome.result none "remote failed".data :=
  claim_C2_amended.1 (fun _ => (none, "remote failed".data)) []
    (fun _ => (none, "analysis failed".data)) "x".data "/m".data
    "remote failed".data rfl rfl

/-- C3, counterexample.  With both credential environment variables absent,
`setup_spotify_client` silently falls back to the hardcoded credentials and
still returns a client, and a remote lookup is then performed and can even
resolve the request — the remote branch is not prevented and no
configuration error occurs. -/
theorem claim_C3_counterexample :
    setup_spotify_client none none = some (hardcodedClientId, hardcodedClientSecret)
    ∧ mainPipeline (setup_spotify_client none none).isSome
        (fun s => search_spotify_bpm (.ok "Firefly".data "Jim Yosef".data (some 128)) s)
        [] (fun _ => (none, []))
        ⟨some "Firefly Jim Yosef".data, none, none⟩
      = Outcome.result (some (round2 128))
          (search_spotify_bpm (.ok "Firefly".data "Jim Yosef".data (some 128))
            "Firefly Jim Yosef".data).2 :=
  ⟨rfl, rfl⟩

/-- C3, amended.  `setup_spotify_client` always returns a client: when either
environment credential is absent or empty it substitutes the hardcoded
fallback pair instead of failing, so the remote branch stays enabled and
remote lookups proceed without environment-sourced credentials (the spec
notes this fallback as a design flaw in section 9). -/
theorem claim_C3_amended :
    (∀ envId envSecret, (setup_spotify_client envId envSecret).isSome = true)
    ∧ ∀ envId envSecret, (falsy envId || falsy envSecret) = true →
      setup_spotify_client envId envSecret
        = some (hardcodedClientId, hardcodedClientSecret) := by
  constructor
  · intro a b
    unfold setup_spotify_client
    split <;> rfl
  · intro a b h
    unfold setup_spotify_client
    rw [if_pos h]

/-- Witness for C3 amended with both environment values absent. -/
theorem claim_C3_witness :
    setup_spotify_client none none
      = some (hardcodedClientId, hardcodedClientSecret) :=
  claim_C3_amended.2 none none (by decide)

/-- C7, counterexample.  For the request of Scenario B the scan does not find
`/music/obscure_track.mp3`: the normalized song name `obscure track` is not a
substring of the normalized stem `obscure_track` (the underscore is kept by
normalization, the space is not turned into one), so even with local analysis
ready to return 95.37 the pipeline ends unresolved with the remote
not-found message rather than `{bpm: 95.37, sourceKind: LocalFile}`. -/
theorem claim_C7_counterexample :
    scan_directory_for_song musicUnderscore "Obscure Track".data = none
    ∧ mainPipeline true (fun s => search_spotify_bpm .noTracks s) musicUnderscore
        (fun _ => (some 95.37, "Local analysis".data))
        ⟨some "Obscure Track".data, none, some "/music".data⟩
      = Outcome.result none
          "No tracks found for \x27Obscure Track\x27 on Spotify.".data :=
  ⟨rfl, rfl⟩

/-- C7, amended.  Scenario B resolves only when the directory holds a file
whose normalized stem contains the normalized song name — for example
`/music/Obscure Track.mp3`.  Then, with the remote lookup failing with
not-found, the scan finds that file, local analysis runs on it, and its
value 95.37 with its message is the final result (the LocalFile source). -/
theorem claim_C7_amended (analysisMsg : List Char) :
    scan_directory_for_song musicSpace "Obscure Track".data
      = some "/music/Obscure Track.mp3".data
    ∧ mainPipeline true (fun s => search_spotify_bpm .noTracks s) musicSpace
        (fun _ => (some 95.37, analysisMsg))
        ⟨some "Obscure Track".data, none, some "/music".data⟩
      = Outcome.result (some 95.37) analysisMsg :=
  ⟨rfl, rfl⟩

/-- C9.  A file path without an allowed extension is rejected before any
analysis: the command-line path returns the unsupported-format error
(uniformly in every collaborator, so no decode is attempted), the GUI path
returns its format error whatever the other fields hold, and even a
conflicting command-line request is rejected by one of the two validation
errors before any collaborator runs. -/
theorem claim_C9 :
    (∀ (setupOk : Bool) (remote : List Char → Option ℚ × List Char)
      (scanFiles : List FileEntry) (analyze : List Char → Option ℚ × List Char)
      (p : List Char), allowedExt p = false →
      mainPipeline setupOk remote scanFiles analyze ⟨none, some p, none⟩
        = Outcome.unsupportedFormatError)
    ∧ (∀ (setupOk : Bool) (remote : List Char → Option ℚ × List Char)
      (scanFiles : List FileEntry) (analyze : List Char → Option ℚ × List Char)
      (songName directory : Option (List Char)) (p : List Char), allowedExt p = false →
      process_bpm setupOk remote scanFiles analyze songName directory (some p)
        = GuiOutcome.formatError)
    ∧ ∀ (setupOk : Bool) (remote : List Char → Option ℚ × List Char)
      (scanFiles : List FileEntry) (analyze : List Char → Option ℚ × List Char)
      (song directory : Option (List Char)) (p : List Char), allowedExt p = false →
      mainPipeline setupOk remote scanFiles analyze ⟨song, some p, directory⟩
        = Outcome.conflictError
      ∨ mainPipeline setupOk remote scanFiles analyze ⟨song, some p, directory⟩
        = Outcome.unsupportedFormatError := by
  refine ⟨?_, ?_, ?_⟩
  · intro S R F A p h
    simp [mainPipeline, h]
  · intro S R F A songName directory p h
    cases songName <;> simp [process_bpm, h]
  · intro S R F A song directory p h
    cases song <;> cases directory <;> simp [mainPipeline, h]

/-- Witness for C9 at a text-file path. -/
theorem claim_C9_witness :
    mainPipeline true (fun _ => (none, [])) [] (fun _ => (none, []))
        ⟨none, some "a.txt".data, none⟩ = Outcome.unsupportedFormatError
    ∧ process_bpm true (fun _ => (none, [])) [] (fun _ => (none, []))
        none none (some "a.txt".data) = GuiOutcome.formatError
    ∧ (mainPipeline true (fun _ => (none, [])) [] (fun _ => (none, []))
        ⟨some "s".data, some "a.txt".data, none⟩ = Outcome.conflictError
      ∨ mainPipeline true (fun _ => (none, [])) [] (fun _ => (none, []))
        ⟨some "s".data, some "a.txt".data, none⟩ = Outcome.unsupportedFormatError) :=
  ⟨claim_C9.1 true (fun _ => (none, [])) [] (fun _ => (none, [])) "a.txt".data (by decide),
    claim_C9.2.1 true (fun _ => (none, [])) [] (fun _ => (none, [])) none none
      "a.txt".data (by decide),
    claim_C9.2.2 true (fun _ => (none, [])) [] (fun _ => (none, []))
      (some "s".data) none "a.txt".data (by decide)⟩

end BPMDetector
